import Mathlib

/-!
Verification of the Game_alpha data-cleaning scripts.

Shallow embedding of the Python sources:
  src/data/process_game_data.py      (name classifier, dice loader, movement resolver)
  src/data/migrate_dice_conditions.py (dice-condition migration)
  src/data/process_remaining_files.py (game-config extractor, effects writer)
  src/data/VALIDATION/validate_data.py (CSV loader, data-preservation validator)
  src/data/validate_movement_data.py  (movement validator)
  src/scripts/fix-l-cards.py          (L-card fix pass)

Strings are modelled as `List Char`.  Python string methods (strip, lower,
upper, in, join) and the regular expressions actually used by the code are
modelled as executable Lean functions; each definition carries a comment
naming the Python construct it embeds.  CSV reading and writing follow the
documented semantics of the Python csv module with the default dialect
(delimiter comma, quotechar double quote, doublequote on, QUOTE_MINIMAL,
lineterminator CRLF), together with the universal-newline translation that
text-mode reading applies because the loader opens files without newline
control.
-/

namespace GameAlpha

abbrev Str := List Char

/-- Python str.strip character class: space, tab, LF, CR, VT, FF
(the ASCII whitespace stripped by str.strip with no argument). -/
def pyIsSpace (c : Char) : Bool :=
  [' ', '\t', '\n', '\r', '\x0b', '\x0c'].contains c

/-- Python `name.strip()`: drop leading and trailing whitespace. -/
def pyStrip (s : Str) : Str :=
  ((s.dropWhile pyIsSpace).reverse.dropWhile pyIsSpace).reverse

/-- Python `s.lower()` on the ASCII data handled by these scripts. -/
def pyLower (s : Str) : Str := s.map Char.toLower

/-- Python `s.upper()` on the ASCII data handled by these scripts. -/
def pyUpper (s : Str) : Str := s.map Char.toUpper

/-- Character class `[A-Z]` of the regexes in process_game_data.py. -/
def isUpperAlpha (c : Char) : Bool := 'A' ≤ c && c ≤ 'Z'

/-- Character class `[A-Z0-9-]` of the regexes in process_game_data.py. -/
def isNameChar (c : Char) : Bool := isUpperAlpha c || c.isDigit || c == '-'

/-- `re.match` of the anchored pattern over uppercase letter followed by one
or more of `[A-Z0-9-]`, applied by is_valid_space_name to the stripped name
(which therefore has no trailing newline, so the end anchor is plain
end-of-string). -/
def matchesNamePattern : Str → Bool
  | [] => false
  | c :: rest => isUpperAlpha c && !rest.isEmpty && rest.all isNameChar

/-- Match of the positional-placeholder regex (the word Space, one or more
whitespace, one or more digits, end of string, case-insensitive) used by
is_valid_space_name.  The quantifiers are greedy and nothing after them can
backtrack usefully (after maximal whitespace the next char must be a digit,
and after maximal digits the string must end), so maximal munch is exact. -/
def matches_space_n (name : Str) : Bool :=
  let low := pyLower name
  ("space".data).isPrefixOf low &&
  (let rest := low.drop 5
   let ws := rest.takeWhile pyIsSpace
   let rest2 := rest.dropWhile pyIsSpace
   let ds := rest2.takeWhile Char.isDigit
   !ws.isEmpty && !ds.isEmpty && (rest2.dropWhile Char.isDigit).isEmpty)

/-- Match at the start of `s` of the duration regex body (one or more digits,
optional whitespace, then day or week or month, case-insensitive).  Greedy
digit and whitespace runs cannot overshoot: after the digits only whitespace
or the literal can follow, and a digit is neither whitespace nor the first
letter of the literal, so maximal munch is exact. -/
def hasTimeAt (s : Str) : Bool :=
  match s with
  | [] => false
  | c :: _ =>
    c.isDigit &&
    (let afterD := s.dropWhile Char.isDigit
     let afterS := afterD.dropWhile pyIsSpace
     let low := pyLower afterS
     ("day".data).isPrefixOf low || ("week".data).isPrefixOf low ||
       ("month".data).isPrefixOf low)

/-- `re.search` of the duration regex: a match may start at any position. -/
def timeIndicator : Str → Bool
  | [] => false
  | c :: rest => hasTimeAt (c :: rest) || timeIndicator rest

/-- src/data/process_game_data.py, is_valid_space_name (lines 16-58).
The Python function is a chain of early-false checks on the stripped name;
since every check is pure, the chain is the conjunction of the checks in
source order. -/
def is_valid_space_name (raw : Str) : Bool :=
  let name := pyStrip raw
  !name.isEmpty &&
  matchesNamePattern name &&
  !name.contains '?' &&
  !matches_space_n name &&
  !(pyUpper name == "YES".data || pyUpper name == "NO".data) &&
  !timeIndicator name &&
  (name.contains '-' || name == "START".data || name == "FINISH".data) &&
  decide (5 ≤ name.length)

/-- Helper for the findall model: split off the maximal run of name
characters (Python takeWhile over the class `[A-Z0-9-]`). -/
def takeRun : Str → Str × Str
  | [] => ([], [])
  | c :: rest =>
    if isNameChar c then
      let p := takeRun rest
      (c :: p.1, p.2)
    else ([], c :: rest)

/-- Fuelled worker for `re.findall` of the token regex (uppercase letter then
two or more of `[A-Z0-9-]`): the scan is left to right and non-overlapping,
a successful greedy match consumes the maximal run, and on failure the engine
retries at the next character.  Fuel bounds the number of scan steps; the
wrapper supplies the input length, which always suffices because each step
consumes at least one character. -/
def findallF : Nat → Str → List Str
  | 0, _ => []
  | _ + 1, [] => []
  | fuel + 1, c :: rest =>
    if isUpperAlpha c then
      let p := takeRun rest
      if 2 ≤ p.1.length then (c :: p.1) :: findallF fuel p.2
      else findallF fuel rest
    else findallF fuel rest

/-- `re.findall` of the uppercase-hyphenated token regex used by
extract_destinations_from_logic_conditions. -/
def findall_names (s : Str) : List Str := findallF s.length s

/-- Lexicographic comparison of `List Char` by code point, the order Python
sorted uses on strings. -/
def strLt : Str → Str → Bool
  | [], [] => false
  | [], _ :: _ => true
  | _ :: _, [] => false
  | a :: as, b :: bs => if a < b then true else if b < a then false else strLt as bs

/-- Insert into a sorted duplicate-free list, keeping it sorted and
duplicate-free. -/
def insertSortedUnique (x : Str) : List Str → List Str
  | [] => [x]
  | y :: ys =>
    if strLt x y then x :: y :: ys
    else if x == y then y :: ys
    else y :: insertSortedUnique x ys

/-- Python `sorted(set(l))` for a list of strings: the sorted list of the
distinct elements. -/
def pySortedSet (l : List Str) : List Str := l.foldr insertSortedUnique []

/-- One row of the source Spaces.csv as the scripts read it through
csv.DictReader: the fields the movement resolver, the game-config extractor
and the effect extractor consult. -/
structure SpaceRow where
  space_name : Str
  visit_type : Str
  path : Str
  requires_dice_roll : Str
  phase : Str
  space_1 : Str
  space_2 : Str
  space_3 : Str
  space_4 : Str
  space_5 : Str
  w_card : Str := []
  b_card : Str := []
  i_card : Str := []
  l_card : Str := []
  e_card : Str := []
  Time : Str := []
  Fee : Str := []
  Event : Str := []
deriving DecidableEq, Repr

/-- The five condition cells consulted by
extract_destinations_from_logic_conditions. -/
def logicCells (row : SpaceRow) : List Str :=
  [row.space_1, row.space_2, row.space_3, row.space_4, row.space_5]

/-- src/data/process_game_data.py, extract_destinations_from_logic_conditions
(lines 94-120): strip each condition cell, skip empty cells, collect the
regex tokens that pass is_valid_space_name into a set, return it sorted. -/
def extract_destinations_from_logic_conditions (row : SpaceRow) : List Str :=
  let cands := (logicCells row).flatMap fun cell =>
    let t := pyStrip cell
    if t.isEmpty then []
    else (findall_names t).filter fun n => is_valid_space_name n
  pySortedSet cands

/-- src/data/process_game_data.py, get_all_destination_columns
(lines 122-130): the five destination cells, stripped. -/
def get_all_destination_columns (row : SpaceRow) : List Str :=
  [pyStrip row.space_1, pyStrip row.space_2, pyStrip row.space_3,
   pyStrip row.space_4, pyStrip row.space_5]

/-- Output row of MOVEMENT.csv.  The five condition columns the writer emits
are always empty strings and carry no information, so they are not fields. -/
structure MovementRecord where
  space_name : Str
  visit_type : Str
  movement_type : Str
  destination_1 : Str
  destination_2 : Str
  destination_3 : Str
  destination_4 : Str
  destination_5 : Str
deriving DecidableEq, Repr

/-- src/data/process_game_data.py, create_movement_row (lines 132-148):
destinations beyond the fifth are dropped, missing ones become empty. -/
def create_movement_row (space_name visit_type movement_type : Str)
    (destinations : List Str) : MovementRecord :=
  { space_name := space_name
    visit_type := visit_type
    movement_type := movement_type
    destination_1 := destinations.getD 0 []
    destination_2 := destinations.getD 1 []
    destination_3 := destinations.getD 2 []
    destination_4 := destinations.getD 3 []
    destination_5 := destinations.getD 4 [] }

/-- The destination list of a MovementRecord: the non-empty destination
fields in order. -/
def destList (r : MovementRecord) : List Str :=
  [r.destination_1, r.destination_2, r.destination_3, r.destination_4,
   r.destination_5].filter fun d => !d.isEmpty

/-- src/data/process_game_data.py, load_dice_data (lines 60-92), applied to
the data rows of DiceRoll Info.csv (the header was already skipped by the
reader).  Each raw row is a list of cells; rows with fewer than nine cells
are ignored.  The Python set of keys is modelled as the list of keys added,
in which only membership is meaningful. -/
def load_dice_data : List (List Str) → List (Str × Str)
  | [] => []
  | row :: rest =>
    let tail := load_dice_data rest
    if 9 ≤ row.length then
      let space_name := pyStrip (row.getD 0 [])
      let outcome_type := pyStrip (row.getD 1 [])
      let visit_type := pyStrip (row.getD 2 [])
      let rolls := [pyStrip (row.getD 3 []), pyStrip (row.getD 4 []),
                    pyStrip (row.getD 5 []), pyStrip (row.getD 6 []),
                    pyStrip (row.getD 7 []), pyStrip (row.getD 8 [])]
      if outcome_type == "Next Step".data then (space_name, visit_type) :: tail
      else if outcome_type == "Time outcomes".data then
        if rolls.any (fun roll => !roll.isEmpty && is_valid_space_name roll) then
          (space_name, visit_type) :: tail
        else tail
      else tail
    else tail

/-- Python `' '.join(cells)`. -/
def joinSpace : List Str → Str
  | [] => []
  | [c] => c
  | c :: rest => c ++ ' ' :: joinSpace rest

/-- Python substring test `needle in haystack` on lists of characters: the
needle occurs at some position of the haystack. -/
def strContains : Str → Str → Bool
  | haystack, needle =>
    needle.isPrefixOf haystack ||
    match haystack with
    | [] => false
    | _ :: rest => strContains rest needle

/-- src/data/process_game_data.py, process_spaces_to_movement (lines
169-238), the per-row body of the reader loop: the tiered decision that
produces one MovementRecord from one SpaceRow, given the key set computed by
load_dice_data. -/
def classify_movement_row (dice_spaces : List (Str × Str)) (row : SpaceRow) :
    MovementRecord :=
  let space_name := row.space_name
  let visit_type := row.visit_type
  let path := pyStrip row.path
  let all_dest_columns := get_all_destination_columns row
  -- SPECIAL CASE: tutorial space
  if space_name == "START-QUICK-PLAY-GUIDE".data then
    create_movement_row space_name visit_type "none".data []
  -- PRIORITY 1: path column
  else if path == "LOGIC".data then
    create_movement_row space_name visit_type "choice".data
      (extract_destinations_from_logic_conditions row)
  -- PRIORITY 2: dice-based movement
  else if (space_name, visit_type) ∈ dice_spaces then
    create_movement_row space_name visit_type "dice".data []
  -- PRIORITY 3: stateful movement pattern
  else if strContains (pyLower (joinSpace all_dest_columns))
      ("option from first visit".data) then
    let valid_dests := all_dest_columns.filter fun d => is_valid_space_name d
    create_movement_row space_name visit_type
      (if valid_dests.isEmpty then "none".data else "choice".data) valid_dests
  -- PRIORITY 4: literal dice-outcome phrase
  else if all_dest_columns.any (fun d => !d.isEmpty &&
      strContains (pyLower d) "outcome".data &&
      strContains (pyLower d) "dice".data) then
    create_movement_row space_name visit_type "dice".data []
  -- PRIORITY 5: standard destination counting
  else
    let valid_destinations := all_dest_columns.filter fun d => is_valid_space_name d
    let movement_type :=
      if valid_destinations.length == 0 then "none".data
      else if valid_destinations.length == 1 then "fixed".data
      else "choice".data
    create_movement_row space_name visit_type movement_type valid_destinations

/-- src/data/process_game_data.py, process_spaces_to_movement: the list of
records appended by the loop, one per source row. -/
def process_spaces_to_movement (dice_rows : List (List Str))
    (space_rows : List SpaceRow) : List MovementRecord :=
  space_rows.map (classify_movement_row (load_dice_data dice_rows))

/-! ## Helper lemmas -/

theorem mem_insertSortedUnique {z x : Str} {l : List Str}
    (h : z ∈ insertSortedUnique x l) : z = x ∨ z ∈ l := by
  induction l with
  | nil => simpa [insertSortedUnique] using h
  | cons y ys ih =>
    unfold insertSortedUnique at h
    split_ifs at h with h1 h2
    · simpa using h
    · exact Or.inr h
    · rcases List.mem_cons.mp h with h3 | h3
      · right; exact List.mem_cons.mpr (Or.inl h3)
      · rcases ih h3 with h4 | h4
        · exact Or.inl h4
        · exact Or.inr (List.mem_cons.mpr (Or.inr h4))

theorem mem_pySortedSet {z : Str} {l : List Str} (h : z ∈ pySortedSet l) :
    z ∈ l := by
  induction l with
  | nil => simp [pySortedSet] at h
  | cons y ys ih =>
    rcases mem_insertSortedUnique (h := h) with h1 | h1
    · simp [h1]
    · exact List.mem_cons.mpr (Or.inr (ih h1))

theorem extract_mem_valid {d : Str} {row : SpaceRow}
    (h : d ∈ extract_destinations_from_logic_conditions row) :
    is_valid_space_name d = true := by
  unfold extract_destinations_from_logic_conditions at h
  have h1 := mem_pySortedSet h
  simp only [List.mem_flatMap] at h1
  obtain ⟨cell, _, h2⟩ := h1
  by_cases he : (pyStrip cell).isEmpty
  · simp [he] at h2
  · simp only [he, if_neg, Bool.false_eq_true, if_false] at h2
    exact (List.mem_filter.mp h2).2

theorem valid_not_isEmpty {d : Str} (h : is_valid_space_name d = true) :
    d.isEmpty = false := by
  cases d with
  | nil => simp [is_valid_space_name, pyStrip, pyIsSpace] at h
  | cons c rest => rfl

theorem getD_mem {l : List Str} {i : Nat} (h : l.getD i [] ≠ []) :
    l.getD i [] ∈ l := by
  induction l generalizing i with
  | nil => simp at h
  | cons a as ih =>
    cases i with
    | zero => simp
    | succ j =>
      simp only [List.getD_cons_succ] at h ⊢
      exact List.mem_cons.mpr (Or.inr (ih h))

theorem mem_destList_create {d n v t : Str} {ds : List Str}
    (h : d ∈ destList (create_movement_row n v t ds)) : d ∈ ds := by
  simp only [destList, create_movement_row, List.mem_filter, List.mem_cons,
    List.not_mem_nil, or_false, Bool.not_eq_true'] at h
  obtain ⟨hmem, hne⟩ := h
  have hne' : d ≠ [] := by
    intro hd; subst hd; simp at hne
  rcases hmem with h1 | h1 | h1 | h1 | h1 <;>
    (subst h1; exact getD_mem hne')

theorem destList_create_eq {n v t : Str} {ds : List Str}
    (hlen : ds.length ≤ 5) (hne : ∀ d ∈ ds, d.isEmpty = false) :
    destList (create_movement_row n v t ds) = ds := by
  match ds, hlen with
  | [], _ => rfl
  | [a], _ =>
    have ha := hne a (by simp)
    simp [destList, create_movement_row, List.filter, ha]
  | [a, b], _ =>
    have ha := hne a (by simp)
    have hb := hne b (by simp)
    simp [destList, create_movement_row, List.filter, ha, hb]
  | [a, b, c], _ =>
    have ha := hne a (by simp)
    have hb := hne b (by simp)
    have hc := hne c (by simp)
    simp [destList, create_movement_row, List.filter, ha, hb, hc]
  | [a, b, c, d], _ =>
    have ha := hne a (by simp)
    have hb := hne b (by simp)
    have hc := hne c (by simp)
    have hd := hne d (by simp)
    simp [destList, create_movement_row, List.filter, ha, hb, hc, hd]
  | [a, b, c, d, e], _ =>
    have ha := hne a (by simp)
    have hb := hne b (by simp)
    have hc := hne c (by simp)
    have hd := hne d (by simp)
    have he := hne e (by simp)
    simp [destList, create_movement_row, List.filter, ha, hb, hc, hd, he]

/-! ## C3: soundness of the name classifier -/

/-- C3: every string accepted by is_valid_space_name, after stripping the
surrounding whitespace, matches the uppercase-letter-then-uppercase,
digit-or-hyphen pattern, contains no question mark, has length at least
five, and contains a hyphen unless it is exactly START or FINISH. -/
theorem C3_classifier_sound (s : Str) (h : is_valid_space_name s = true) :
    matchesNamePattern (pyStrip s) = true ∧
    (pyStrip s).contains '?' = false ∧
    5 ≤ (pyStrip s).length ∧
    ((pyStrip s).contains '-' = true ∨ pyStrip s = "START".data ∨
      pyStrip s = "FINISH".data) := by
  unfold is_valid_space_name at h
  simp only [Bool.and_eq_true, Bool.not_eq_true', Bool.or_eq_true, beq_iff_eq,
    decide_eq_true_eq] at h
  obtain ⟨⟨⟨⟨⟨⟨⟨-, h2⟩, h3⟩, -⟩, -⟩, -⟩, h7⟩, h8⟩ := h
  exact ⟨h2, h3, h8, by tauto⟩

theorem C3_classifier_sound_witness :
    is_valid_space_name "REG-FDNY-PLAN-EXAM".data = true ∧
    (matchesNamePattern (pyStrip "REG-FDNY-PLAN-EXAM".data) = true ∧
     (pyStrip "REG-FDNY-PLAN-EXAM".data).contains '?' = false ∧
     5 ≤ (pyStrip "REG-FDNY-PLAN-EXAM".data).length ∧
     ((pyStrip "REG-FDNY-PLAN-EXAM".data).contains '-' = true ∨
       pyStrip "REG-FDNY-PLAN-EXAM".data = "START".data ∨
       pyStrip "REG-FDNY-PLAN-EXAM".data = "FINISH".data)) :=
  ⟨by decide, C3_classifier_sound "REG-FDNY-PLAN-EXAM".data (by decide)⟩

/-! ## C5: the branching-condition extraction scenario -/

/-- C5: on a row whose first condition cell asks the approval question with
an embedded identifier and a positional placeholder, the extraction returns
exactly the one identifier; the branch labels YES and NO and the placeholder
are rejected. -/
theorem C5_logic_extraction_scenario :
    extract_destinations_from_logic_conditions
      { space_name := "REG-FDNY-PLAN-EXAM".data
        visit_type := "Subsequent".data
        path := "LOGIC".data
        requires_dice_roll := []
        phase := []
        space_1 :=
          "Did you pass approval? YES - REG-FDNY-PLAN-EXAM - NO - Space 3".data
        space_2 := []
        space_3 := []
        space_4 := []
        space_5 := [] }
      = ["REG-FDNY-PLAN-EXAM".data] := by decide

/-! ## C1: destinations of fixed and choice records -/

/-- C1 counterexample: a LOGIC-tagged row whose condition cells contain no
extractable identifier is classified as choice with an empty destination
list, so a choice record produced by the LOGIC tier can violate the claimed
non-emptiness. -/
theorem C1_counterexample :
    (classify_movement_row []
      { space_name := "REG-TEST-SPACE".data
        visit_type := "First".data
        path := "LOGIC".data
        requires_dice_roll := []
        phase := []
        space_1 := []
        space_2 := []
        space_3 := []
        space_4 := []
        space_5 := [] }).movement_type = "choice".data ∧
    destList (classify_movement_row []
      { space_name := "REG-TEST-SPACE".data
        visit_type := "First".data
        path := "LOGIC".data
        requires_dice_roll := []
        phase := []
        space_1 := []
        space_2 := []
        space_3 := []
        space_4 := []
        space_5 := [] }) = [] := by decide

/-- C1 amended: every destination of every record produced by the movement
resolver passes the name classifier, and a record with movement_type fixed
or choice has a non-empty destination list provided it was not produced by
the LOGIC tier (a LOGIC row is always classified as choice, even when no
identifier could be extracted, so only that tier can emit a choice record
with no destinations). -/
theorem C1_amended (dice_spaces : List (Str × Str)) (row : SpaceRow) :
    (∀ d ∈ destList (classify_movement_row dice_spaces row),
      is_valid_space_name d = true) ∧
    (((classify_movement_row dice_spaces row).movement_type = "fixed".data ∨
      (classify_movement_row dice_spaces row).movement_type = "choice".data) →
      pyStrip row.path ≠ "LOGIC".data →
      destList (classify_movement_row dice_spaces row) ≠ []) := by
  have hv : ∀ d ∈ (get_all_destination_columns row).filter
      (fun d => is_valid_space_name d), is_valid_space_name d = true :=
    fun d hd => (List.mem_filter.mp hd).2
  have hvlen : ((get_all_destination_columns row).filter
      (fun d => is_valid_space_name d)).length ≤ 5 := by
    calc ((get_all_destination_columns row).filter
        (fun d => is_valid_space_name d)).length
        ≤ (get_all_destination_columns row).length := List.length_filter_le _ _
      _ = 5 := rfl
  have hne : ∀ d ∈ (get_all_destination_columns row).filter
      (fun d => is_valid_space_name d), d.isEmpty = false :=
    fun d hd => valid_not_isEmpty (hv d hd)
  unfold classify_movement_row
  dsimp only
  split_ifs with h1 h2 h3 h4 h5 h6 h7 h8
  · -- tutorial space: none, no destinations
    refine ⟨fun d hd => absurd (mem_destList_create hd) (by simp),
      fun hmt _ => ?_⟩
    rcases hmt with hmt | hmt <;> simp [create_movement_row] at hmt
  · -- LOGIC tier: destinations all valid, excluded by the path hypothesis
    exact ⟨fun d hd => extract_mem_valid (mem_destList_create hd),
      fun _ hpath => absurd (by simpa using h2) hpath⟩
  · -- dice tier: no destinations, movement_type dice
    refine ⟨fun d hd => absurd (mem_destList_create hd) (by simp),
      fun hmt _ => ?_⟩
    rcases hmt with hmt | hmt <;> simp [create_movement_row] at hmt
  · -- option-from-first-visit tier, no valid destination: none
    refine ⟨fun d hd => hv d (mem_destList_create hd), fun hmt _ => ?_⟩
    rcases hmt with hmt | hmt <;> simp [create_movement_row] at hmt
  · -- option-from-first-visit tier, valid destinations present: choice
    refine ⟨fun d hd => hv d (mem_destList_create hd), fun _ _ => ?_⟩
    rw [destList_create_eq hvlen hne]
    intro hnil
    rw [hnil] at h5
    exact h5 rfl
  · -- literal dice-outcome phrase tier
    refine ⟨fun d hd => absurd (mem_destList_create hd) (by simp),
      fun hmt _ => ?_⟩
    rcases hmt with hmt | hmt <;> simp [create_movement_row] at hmt
  · -- standard counting, zero valid destinations: none
    refine ⟨fun d hd => hv d (mem_destList_create hd), fun hmt _ => ?_⟩
    rcases hmt with hmt | hmt <;> simp [create_movement_row] at hmt
  · -- standard counting, one valid destination: fixed
    refine ⟨fun d hd => hv d (mem_destList_create hd), fun _ _ => ?_⟩
    rw [destList_create_eq hvlen hne]
    intro hnil
    rw [hnil] at h7
    exact h7 rfl
  · -- standard counting, two or more valid destinations: choice
    refine ⟨fun d hd => hv d (mem_destList_create hd), fun _ _ => ?_⟩
    rw [destList_create_eq hvlen hne]
    intro hnil
    rw [hnil] at h7
    exact h7 rfl

theorem C1_amended_witness :
    (∀ d ∈ destList (classify_movement_row []
      { space_name := "OWNER-SCOPE-INITIATION".data
        visit_type := "First".data
        path := "Main".data
        requires_dice_roll := []
        phase := []
        space_1 := "OWNER-FUND-INITIATION".data
        space_2 := []
        space_3 := []
        space_4 := []
        space_5 := [] }), is_valid_space_name d = true) ∧
    destList (classify_movement_row []
      { space_name := "OWNER-SCOPE-INITIATION".data
        visit_type := "First".data
        path := "Main".data
        requires_dice_roll := []
        phase := []
        space_1 := "OWNER-FUND-INITIATION".data
        space_2 := []
        space_3 := []
        space_4 := []
        space_5 := [] }) ≠ [] := by
  have h := C1_amended []
    { space_name := "OWNER-SCOPE-INITIATION".data
      visit_type := "First".data
      path := "Main".data
      requires_dice_roll := []
      phase := []
      space_1 := "OWNER-FUND-INITIATION".data
      space_2 := []
      space_3 := []
      space_4 := []
      space_5 := [] }
  exact ⟨h.1, h.2 (Or.inl (by decide)) (by decide)⟩

/-! ## C2: the dice-outcome tier -/

theorem isEmpty_false_iff {α : Type} (l : List α) : l.isEmpty = false ↔ l ≠ [] := by
  cases l <;> simp

theorem rolls_any_iff (r : List Str) :
    ([pyStrip (r.getD 3 []), pyStrip (r.getD 4 []), pyStrip (r.getD 5 []),
      pyStrip (r.getD 6 []), pyStrip (r.getD 7 []), pyStrip (r.getD 8 [])].any
        (fun roll => !roll.isEmpty && is_valid_space_name roll)) = true ↔
    ∃ i, i < 6 ∧ pyStrip (r.getD (3 + i) []) ≠ [] ∧
      is_valid_space_name (pyStrip (r.getD (3 + i) [])) = true := by
  simp only [List.any_cons, List.any_nil, Bool.or_eq_true, Bool.and_eq_true,
    Bool.not_eq_true', Bool.or_false, isEmpty_false_iff]
  constructor
  · rintro (h | h | h | h | h | h)
    · exact ⟨0, by omega, h⟩
    · exact ⟨1, by omega, h⟩
    · exact ⟨2, by omega, h⟩
    · exact ⟨3, by omega, h⟩
    · exact ⟨4, by omega, h⟩
    · exact ⟨5, by omega, h⟩
  · rintro ⟨i, hi, h⟩
    rcases i with _ | _ | _ | _ | _ | _ | j
    · exact Or.inl h
    · exact Or.inr <| Or.inl h
    · exact Or.inr <| Or.inr <| Or.inl h
    · exact Or.inr <| Or.inr <| Or.inr <| Or.inl h
    · exact Or.inr <| Or.inr <| Or.inr <| Or.inr <| Or.inl h
    · exact Or.inr <| Or.inr <| Or.inr <| Or.inr <| Or.inr h
    · omega

theorem mem_load_dice_data (tbl : List (List Str)) (n v : Str) :
    (n, v) ∈ load_dice_data tbl ↔
    ∃ r ∈ tbl, 9 ≤ r.length ∧ pyStrip (r.getD 0 []) = n ∧
      pyStrip (r.getD 2 []) = v ∧
      (pyStrip (r.getD 1 []) = "Next Step".data ∨
       (pyStrip (r.getD 1 []) = "Time outcomes".data ∧
        ∃ i, i < 6 ∧ pyStrip (r.getD (3 + i) []) ≠ [] ∧
          is_valid_space_name (pyStrip (r.getD (3 + i) [])) = true)) := by
  induction tbl with
  | nil => simp [load_dice_data]
  | cons r rest ih =>
    unfold load_dice_data
    dsimp only
    split_ifs with hlen hns hto hany
    · -- at least nine cells, category Next Step: the key is added
      rw [beq_iff_eq] at hns
      constructor
      · intro h
        rcases List.mem_cons.mp h with hkey | htail
        · have hn := congrArg Prod.fst hkey
          have hv := congrArg Prod.snd hkey
          exact ⟨r, List.mem_cons_self r rest, hlen, hn.symm, hv.symm, Or.inl hns⟩
        · obtain ⟨x, hx, hp⟩ := ih.mp htail
          exact ⟨x, List.mem_cons.mpr (Or.inr hx), hp⟩
      · rintro ⟨x, hx, hp⟩
        rcases List.mem_cons.mp hx with rfl | hx1
        · exact List.mem_cons.mpr (Or.inl (by rw [hp.2.1, hp.2.2.1]))
        · exact List.mem_cons.mpr (Or.inr (ih.mpr ⟨x, hx1, hp⟩))
    · -- category Time outcomes with an identifier-shaped face: key added
      rw [beq_iff_eq] at hto
      rw [Bool.not_eq_true, beq_eq_false_iff_ne] at hns
      rw [rolls_any_iff] at hany
      constructor
      · intro h
        rcases List.mem_cons.mp h with hkey | htail
        · have hn := congrArg Prod.fst hkey
          have hv := congrArg Prod.snd hkey
          exact ⟨r, List.mem_cons_self r rest, hlen, hn.symm, hv.symm,
            Or.inr ⟨hto, hany⟩⟩
        · obtain ⟨x, hx, hp⟩ := ih.mp htail
          exact ⟨x, List.mem_cons.mpr (Or.inr hx), hp⟩
      · rintro ⟨x, hx, hp⟩
        rcases List.mem_cons.mp hx with rfl | hx1
        · exact List.mem_cons.mpr (Or.inl (by rw [hp.2.1, hp.2.2.1]))
        · exact List.mem_cons.mpr (Or.inr (ih.mpr ⟨x, hx1, hp⟩))
    · -- category Time outcomes but no identifier-shaped face: row skipped
      rw [beq_iff_eq] at hto
      rw [Bool.not_eq_true, beq_eq_false_iff_ne] at hns
      rw [rolls_any_iff] at hany
      rw [ih]
      constructor
      · rintro ⟨x, hx, hp⟩
        exact ⟨x, List.mem_cons.mpr (Or.inr hx), hp⟩
      · rintro ⟨x, hx, hp⟩
        rcases List.mem_cons.mp hx with hx1 | hx1
        · subst hx1
          rcases hp.2.2.2 with hcat | hcat
          · exact absurd hcat hns
          · exact absurd hcat.2 hany
        · exact ⟨x, hx1, hp⟩
    · -- category neither Next Step nor Time outcomes: row skipped
      rw [Bool.not_eq_true, beq_eq_false_iff_ne] at hns hto
      rw [ih]
      constructor
      · rintro ⟨x, hx, hp⟩
        exact ⟨x, List.mem_cons.mpr (Or.inr hx), hp⟩
      · rintro ⟨x, hx, hp⟩
        rcases List.mem_cons.mp hx with hx1 | hx1
        · subst hx1
          rcases hp.2.2.2 with hcat | hcat
          · exact absurd hcat hns
          · exact absurd hcat.1 hto
        · exact ⟨x, hx1, hp⟩
    · -- fewer than nine cells: row skipped
      rw [ih]
      constructor
      · rintro ⟨x, hx, hp⟩
        exact ⟨x, List.mem_cons.mpr (Or.inr hx), hp⟩
      · rintro ⟨x, hx, hp⟩
        rcases List.mem_cons.mp hx with hx1 | hx1
        · subst hx1
          exact absurd hp.1 hlen
        · exact ⟨x, hx1, hp⟩

/-- A dice-roll table whose only row has the movement category and six faces
that are literal time spans, not identifiers. -/
def c2Table : List (List Str) :=
  [["DICE-SPACE-A".data, "Next Step".data, "First".data, "5 days".data,
    "5 days".data, "5 days".data, "5 days".data, "5 days".data, "5 days".data]]

/-- A space row for the same key that reaches the dice-outcome tier. -/
def c2Row : SpaceRow :=
  { space_name := "DICE-SPACE-A".data
    visit_type := "First".data
    path := "Main".data
    requires_dice_roll := "Yes".data
    phase := []
    space_1 := []
    space_2 := []
    space_3 := []
    space_4 := []
    space_5 := [] }

/-- C2 counterexample: a key whose only dice-table entry has the movement
category but whose six face values are all literal time spans is still added
to the dice key set, and the resolver classifies it as dice at the
dice-outcome tier, although the claimed condition (face values themselves
valid identifiers) fails. -/
theorem C2_counterexample :
    ("DICE-SPACE-A".data, "First".data) ∈ load_dice_data c2Table ∧
    (classify_movement_row (load_dice_data c2Table) c2Row).movement_type =
      "dice".data ∧
    ¬ ∃ r ∈ c2Table,
        (pyStrip (r.getD 1 []) = "Next Step".data ∨
         pyStrip (r.getD 1 []) = "Time outcomes".data) ∧
        ∀ i, i < 6 → is_valid_space_name (pyStrip (r.getD (3 + i) [])) = true := by
  decide

/-- C2 amended: for a key not classified by an earlier tier, the resolver
assigns movement_type dice with all destination fields empty at the
dice-outcome tier exactly when the dice-roll table has a row of at least
nine cells for that key whose category is Next Step (its face values are
not examined), or whose category is Time outcomes and at least one of its
six face values is a non-empty valid identifier. -/
theorem C2_amended (tbl : List (List Str)) (row : SpaceRow)
    (h1 : row.space_name ≠ "START-QUICK-PLAY-GUIDE".data)
    (h2 : pyStrip row.path ≠ "LOGIC".data) :
    (((row.space_name, row.visit_type) ∈ load_dice_data tbl) ↔
      ∃ r ∈ tbl, 9 ≤ r.length ∧
        pyStrip (r.getD 0 []) = row.space_name ∧
        pyStrip (r.getD 2 []) = row.visit_type ∧
        (pyStrip (r.getD 1 []) = "Next Step".data ∨
         (pyStrip (r.getD 1 []) = "Time outcomes".data ∧
          ∃ i, i < 6 ∧ pyStrip (r.getD (3 + i) []) ≠ [] ∧
            is_valid_space_name (pyStrip (r.getD (3 + i) [])) = true))) ∧
    ((row.space_name, row.visit_type) ∈ load_dice_data tbl →
      classify_movement_row (load_dice_data tbl) row =
        create_movement_row row.space_name row.visit_type "dice".data []) := by
  refine ⟨mem_load_dice_data tbl row.space_name row.visit_type, fun hmem => ?_⟩
  unfold classify_movement_row
  dsimp only
  rw [if_neg (by simpa using h1), if_neg (by simpa using h2), if_pos hmem]

theorem C2_amended_witness :
    classify_movement_row (load_dice_data c2Table) c2Row =
      create_movement_row "DICE-SPACE-A".data "First".data "dice".data [] := by
  have h := C2_amended c2Table c2Row (by decide) (by decide)
  exact h.2 (by decide)

/-! ## C4: the option-from-first-visit tier -/

/-- A row carrying the deferral phrase with no salvageable identifier. -/
def c4Row : SpaceRow :=
  { space_name := "PM-TEST-SPACE".data
    visit_type := "Subsequent".data
    path := "Main".data
    requires_dice_roll := []
    phase := []
    space_1 := "Option from first visit".data
    space_2 := []
    space_3 := []
    space_4 := []
    space_5 := [] }

/-- A row carrying the deferral phrase plus one valid identifier. -/
def c4RowW : SpaceRow :=
  { space_name := "PM-TEST-SPACE".data
    visit_type := "Subsequent".data
    path := "Main".data
    requires_dice_roll := []
    phase := []
    space_1 := "Option from first visit".data
    space_2 := "OWNER-FUND-INITIATION".data
    space_3 := []
    space_4 := []
    space_5 := [] }

/-- C4 counterexample: a row whose joined destination cells contain the
deferral phrase but yield zero classifier-passing values is recorded with
movement_type none, not choice as claimed. -/
theorem C4_counterexample :
    strContains (pyLower (joinSpace (get_all_destination_columns c4Row)))
      "option from first visit".data = true ∧
    (get_all_destination_columns c4Row).filter
      (fun d => is_valid_space_name d) = [] ∧
    (classify_movement_row [] c4Row).movement_type = "none".data ∧
    (classify_movement_row [] c4Row).movement_type ≠ "choice".data := by decide

/-- C4 amended: for a row not matched by an earlier tier whose five
destination cells, joined and lowercased, contain the deferral phrase, the
resolver records choice with exactly the classifier-passing destination-cell
values when at least one value passes, and none with an empty destination
list when zero values pass. -/
theorem C4_amended (dice_spaces : List (Str × Str)) (row : SpaceRow)
    (h1 : row.space_name ≠ "START-QUICK-PLAY-GUIDE".data)
    (h2 : pyStrip row.path ≠ "LOGIC".data)
    (h3 : (row.space_name, row.visit_type) ∉ dice_spaces)
    (h4 : strContains (pyLower (joinSpace (get_all_destination_columns row)))
      "option from first visit".data = true) :
    ((get_all_destination_columns row).filter
        (fun d => is_valid_space_name d) = [] →
      (classify_movement_row dice_spaces row).movement_type = "none".data ∧
      destList (classify_movement_row dice_spaces row) = []) ∧
    ((get_all_destination_columns row).filter
        (fun d => is_valid_space_name d) ≠ [] →
      (classify_movement_row dice_spaces row).movement_type = "choice".data ∧
      destList (classify_movement_row dice_spaces row) =
        (get_all_destination_columns row).filter
          (fun d => is_valid_space_name d)) := by
  have hvlen : ((get_all_destination_columns row).filter
      (fun d => is_valid_space_name d)).length ≤ 5 := by
    calc ((get_all_destination_columns row).filter
        (fun d => is_valid_space_name d)).length
        ≤ (get_all_destination_columns row).length := List.length_filter_le _ _
      _ = 5 := rfl
  have hne : ∀ d ∈ (get_all_destination_columns row).filter
      (fun d => is_valid_space_name d), d.isEmpty = false :=
    fun d hd => valid_not_isEmpty (List.mem_filter.mp hd).2
  unfold classify_movement_row
  dsimp only
  rw [if_neg (by simpa using h1), if_neg (by simpa using h2), if_neg h3,
    if_pos h4]
  constructor
  · intro hnil
    rw [hnil]
    exact ⟨rfl, rfl⟩
  · intro hne'
    have hemp : ((get_all_destination_columns row).filter
        (fun d => is_valid_space_name d)).isEmpty = false :=
      (isEmpty_false_iff _).mpr hne'
    rw [if_neg (by simp [hemp])]
    exact ⟨rfl, destList_create_eq hvlen hne⟩

theorem C4_amended_witness :
    (classify_movement_row [] c4RowW).movement_type = "choice".data ∧
    destList (classify_movement_row [] c4RowW) =
      ["OWNER-FUND-INITIATION".data] := by
  have h := C4_amended [] c4RowW (by decide) (by decide) (by decide) (by decide)
  have h2 := h.2 (by decide)
  exact ⟨h2.1, h2.2.trans (by decide)⟩

/-! ## C6: the dice-condition migration -/

/-- One row of SPACE_EFFECTS.csv as read through csv.DictReader, with the
columns written by process_space_effects. -/
structure EffectRow where
  space_name : Str
  visit_type : Str
  effect_type : Str
  effect_action : Str
  effect_value : Str
  condition : Str
  description : Str
  trigger_type : Str
deriving DecidableEq, Repr

/-- `re.search` of the pattern: the fixed fourteen-character text (if you
roll a, trailing blank included) followed by one or more digits; returns the
captured digit run of the first (leftmost) match.  The digit quantifier is
greedy and final, so the capture is the maximal digit run; if the literal
matches but no digit follows, the engine retries at the next position. -/
def findRoll : Str → Option Str
  | [] => none
  | c :: rest =>
    if ("if you roll a ".data).isPrefixOf (c :: rest) then
      let digits := ((c :: rest).drop 14).takeWhile Char.isDigit
      if digits.isEmpty then findRoll rest else some digits
    else findRoll rest

/-- src/data/migrate_dice_conditions.py, migrate_csv (lines 23-42), the body
of the row loop: search the lowercased effect_value, then the lowercased
description, for the dice pattern; when a match exists and the row is a
cards row whose lowercased effect_action contains draw_l, rewrite condition,
effect_value and description; otherwise keep the row unchanged. -/
def migrate_row (row : EffectRow) : EffectRow :=
  let effect_value := pyLower row.effect_value
  let description := pyLower row.description
  match (findRoll effect_value).orElse (fun _ => findRoll description) with
  | some required_roll =>
    if row.effect_type == "cards".data &&
        strContains (pyLower row.effect_action) "draw_l".data then
      { row with
        condition := "dice_roll_".data ++ required_roll
        effect_value := "1".data
        description := "Draw L card on roll of ".data ++ required_roll }
    else row
  | none => row

/-- src/data/migrate_dice_conditions.py, migrate_csv: every row read is
appended (rewritten or unchanged), then the whole list is written back. -/
def migrate_csv (rows : List EffectRow) : List EffectRow := rows.map migrate_row

/-- C6: the migration preserves the row count; a row in which neither the
lowercased effect_value nor the lowercased description matches the dice
pattern, or whose effect_type is not cards, or whose lowercased
effect_action does not contain draw_l, is written back unchanged; a row
matching all three conditions ends with condition dice_roll_N for the
matched digit run N and effect_value 1, all fields other than condition,
effect_value and description unchanged. -/
theorem C6_migration (rows : List EffectRow) (row : EffectRow) :
    (migrate_csv rows).length = rows.length ∧
    (((findRoll (pyLower row.effect_value)).orElse
        (fun _ => findRoll (pyLower row.description)) = none ∨
      row.effect_type ≠ "cards".data ∨
      strContains (pyLower row.effect_action) "draw_l".data = false) →
      migrate_row row = row) ∧
    (∀ n, (findRoll (pyLower row.effect_value)).orElse
        (fun _ => findRoll (pyLower row.description)) = some n →
      row.effect_type = "cards".data →
      strContains (pyLower row.effect_action) "draw_l".data = true →
      (migrate_row row).condition = "dice_roll_".data ++ n ∧
      (migrate_row row).effect_value = "1".data ∧
      (migrate_row row).space_name = row.space_name ∧
      (migrate_row row).visit_type = row.visit_type ∧
      (migrate_row row).effect_type = row.effect_type ∧
      (migrate_row row).effect_action = row.effect_action ∧
      (migrate_row row).trigger_type = row.trigger_type) := by
  refine ⟨List.length_map rows migrate_row, ?_, ?_⟩
  · intro h
    unfold migrate_row
    dsimp only
    cases hm : (findRoll (pyLower row.effect_value)).orElse
        (fun _ => findRoll (pyLower row.description)) with
    | none => rfl
    | some n =>
      dsimp only
      rcases h with h | h | h
      · rw [hm] at h
        cases h
      · rw [if_neg]
        simp [h]
      · rw [if_neg]
        simp [h]
  · intro n hm ht ha
    unfold migrate_row
    dsimp only
    rw [hm]
    dsimp only
    rw [if_pos (by simp [ht, ha])]
    exact ⟨rfl, rfl, rfl, rfl, rfl, rfl, rfl⟩

def c6Row : EffectRow :=
  { space_name := "PM-DECISION-CHECK".data
    visit_type := "First".data
    effect_type := "cards".data
    effect_action := "draw_l".data
    effect_value := "Draw 1 if you roll a 2".data
    condition := []
    description := []
    trigger_type := "auto".data }

theorem C6_migration_witness :
    (migrate_row c6Row).condition = "dice_roll_2".data ∧
    (migrate_row c6Row).effect_value = "1".data := by
  have h := (C6_migration [] c6Row).2.2 "2".data (by decide) (by decide)
    (by decide)
  exact ⟨h.1.trans (by decide), h.2.1⟩

/-! ## C9: the game-config extractor -/

/-- One output row of GAME_CONFIG.csv. -/
structure GameConfigRow where
  space_name : Str
  phase : Str
  path_type : Str
  is_starting_space : Str
  is_ending_space : Str
  min_players : Str
  max_players : Str
  requires_dice_roll : Str
deriving DecidableEq, Repr

/-- src/data/process_remaining_files.py, process_game_config (lines 24-38):
the config record built from one source row.  The source uses
row.get with default Yes for requires_dice_roll; under the standard header
the column is present, so the field value is used. -/
def make_game_config_row (row : SpaceRow) : GameConfigRow :=
  { space_name := row.space_name
    phase := row.phase
    path_type := row.path
    is_starting_space :=
      if row.phase == "SETUP".data && row.path == "Main".data then "Yes".data
      else "No".data
    is_ending_space :=
      if row.space_name == "FINISH".data then "Yes".data else "No".data
    min_players := "1".data
    max_players := "4".data
    requires_dice_roll := row.requires_dice_roll }

/-- Worker for process_game_config: the Python dict keyed by space_name with
first-writer-wins insertion (if space_name not in configs), in file order;
seen is the set of keys already inserted. -/
def process_game_config_aux (seen : List Str) : List SpaceRow → List GameConfigRow
  | [] => []
  | row :: rest =>
    if row.space_name ∈ seen then process_game_config_aux seen rest
    else make_game_config_row row ::
      process_game_config_aux (row.space_name :: seen) rest

/-- src/data/process_remaining_files.py, process_game_config (lines 12-48):
one config row per distinct space_name, from the first row bearing it, in
first-occurrence order (Python dict values order). -/
def process_game_config (rows : List SpaceRow) : List GameConfigRow :=
  process_game_config_aux [] rows

theorem mem_process_game_config_aux_names {seen : List Str}
    {rows : List SpaceRow} {n : Str} :
    n ∈ (process_game_config_aux seen rows).map (fun c => c.space_name) ↔
    n ∈ rows.map (fun r => r.space_name) ∧ n ∉ seen := by
  induction rows generalizing seen with
  | nil => simp [process_game_config_aux]
  | cons row rest ih =>
    unfold process_game_config_aux
    split_ifs with hseen
    · rw [ih]
      simp only [List.map_cons, List.mem_cons]
      constructor
      · rintro ⟨h1, h2⟩
        exact ⟨Or.inr h1, h2⟩
      · rintro ⟨h1 | h1, h2⟩
        · subst h1
          exact absurd hseen h2
        · exact ⟨h1, h2⟩
    · simp only [List.map_cons, List.mem_cons, make_game_config_row, ih]
      constructor
      · rintro (h1 | ⟨h1, h2⟩)
        · exact ⟨Or.inl h1, h1 ▸ hseen⟩
        · refine ⟨Or.inr h1, ?_⟩
          intro hmem
          exact h2 (Or.inr hmem)
      · rintro ⟨h1 | h1, h2⟩
        · exact Or.inl h1
        · by_cases hrn : n = row.space_name
          · exact Or.inl hrn
          · exact Or.inr ⟨h1, by simp [hrn, h2]⟩

theorem nodup_process_game_config_aux {seen : List Str}
    {rows : List SpaceRow} :
    ((process_game_config_aux seen rows).map (fun c => c.space_name)).Nodup := by
  induction rows generalizing seen with
  | nil => simp [process_game_config_aux]
  | cons row rest ih =>
    unfold process_game_config_aux
    split_ifs with hseen
    · exact ih
    · simp only [List.map_cons, List.nodup_cons, make_game_config_row]
      refine ⟨?_, ih⟩
      intro hmem
      have := (mem_process_game_config_aux_names.mp hmem).2
      simp at this

theorem process_game_config_aux_first {seen : List Str} {rows : List SpaceRow}
    {cfg : GameConfigRow} (h : cfg ∈ process_game_config_aux seen rows) :
    cfg.space_name ∉ seen ∧
    ∃ r, rows.find? (fun r => r.space_name == cfg.space_name) = some r ∧
      cfg = make_game_config_row r := by
  induction rows generalizing seen with
  | nil => simp [process_game_config_aux] at h
  | cons row rest ih =>
    unfold process_game_config_aux at h
    split_ifs at h with hseen
    · obtain ⟨hnot, r, hfind, hcfg⟩ := ih h
      have hne : row.space_name ≠ cfg.space_name := by
        intro he
        exact hnot (he ▸ hseen)
      refine ⟨hnot, r, ?_, hcfg⟩
      rw [List.find?_cons_of_neg, hfind]
      simp [hne]
    · rcases List.mem_cons.mp h with hcfg | htail
      · subst hcfg
        refine ⟨hseen, row, ?_, rfl⟩
        rw [List.find?_cons_of_pos]
        simp [make_game_config_row]
      · obtain ⟨hnot, r, hfind, hcfg⟩ := ih htail
        have hne : row.space_name ≠ cfg.space_name := by
          intro he
          exact hnot (List.mem_cons.mpr (Or.inl he.symm))
        have hnot' : cfg.space_name ∉ seen := fun hmem =>
          hnot (List.mem_cons.mpr (Or.inr hmem))
        refine ⟨hnot', r, ?_, hcfg⟩
        rw [List.find?_cons_of_neg, hfind]
        simp [hne]

/-- C9: the game-config extractor emits exactly one row per distinct
space_name of the input (no duplicate output names, and a name appears in
the output exactly when it appears in the input), and every output row is
built by make_game_config_row from the first input row, in file order,
bearing its space_name; later rows with the same name contribute nothing. -/
theorem C9_game_config (rows : List SpaceRow) :
    ((process_game_config rows).map (fun c => c.space_name)).Nodup ∧
    (∀ n, n ∈ (process_game_config rows).map (fun c => c.space_name) ↔
      n ∈ rows.map (fun r => r.space_name)) ∧
    (∀ cfg ∈ process_game_config rows,
      ∃ r, rows.find? (fun r => r.space_name == cfg.space_name) = some r ∧
        cfg = make_game_config_row r) := by
  refine ⟨nodup_process_game_config_aux, fun n => ?_, fun cfg h => ?_⟩
  · rw [process_game_config, mem_process_game_config_aux_names]
    simp
  · exact (process_game_config_aux_first h).2

def c9RowA : SpaceRow :=
  { space_name := "OWNER-SCOPE-INITIATION".data
    visit_type := "First".data
    path := "Main".data
    requires_dice_roll := "Yes".data
    phase := "SETUP".data
    space_1 := []
    space_2 := []
    space_3 := []
    space_4 := []
    space_5 := [] }

def c9RowB : SpaceRow :=
  { space_name := "OWNER-SCOPE-INITIATION".data
    visit_type := "Subsequent".data
    path := "Side".data
    requires_dice_roll := "No".data
    phase := "DESIGN".data
    space_1 := []
    space_2 := []
    space_3 := []
    space_4 := []
    space_5 := [] }

theorem C9_game_config_witness :
    ∃ r, [c9RowA, c9RowB].find?
        (fun r => r.space_name == (make_game_config_row c9RowA).space_name) =
        some r ∧
      make_game_config_row c9RowA = make_game_config_row r :=
  (C9_game_config [c9RowA, c9RowB]).2.2 (make_game_config_row c9RowA)
    (by decide)

/-! ## C10: the L-card fix pass -/

/-- src/scripts/fix-l-cards.py, condition of Fix 1 (lines 45-49): the
LEND-SCOPE-CHECK first-visit cards draw_l row with condition always. -/
def lend_fix_applies (row : EffectRow) : Bool :=
  row.space_name == "LEND-SCOPE-CHECK".data &&
  row.visit_type == "First".data &&
  row.effect_type == "cards".data &&
  row.effect_action == "draw_l".data &&
  row.condition == "always".data

/-- src/scripts/fix-l-cards.py, the row loop (lines 36-67).  The loop
captures space, visit, effect_type, effect_action and trigger from the row
before Fix 1 runs, so Fix 2 tests the original effect_action even on a row
that Fix 1 just rewrote to draw_e. -/
def fix_l_cards_row (row : EffectRow) : EffectRow :=
  let effect_type := row.effect_type
  let effect_action := row.effect_action
  let trigger := row.trigger_type
  let row1 :=
    if lend_fix_applies row then
      { row with
        effect_action := "draw_e".data
        description := "Draw 1 E card".data }
    else row
  if effect_type == "cards".data && effect_action == "draw_l".data then
    if trigger == "manual".data then { row1 with trigger_type := "auto".data }
    else if trigger == "auto".data then row1
    else if trigger.isEmpty || (pyStrip trigger).isEmpty then
      { row1 with trigger_type := "auto".data }
    else row1
  else row1

/-- src/scripts/fix-l-cards.py: every row is processed in place and the
whole list written back. -/
def fix_l_cards (rows : List EffectRow) : List EffectRow :=
  rows.map fix_l_cards_row

/-- C10 counterexample: a row whose effect_action is draw_l and whose
trigger_type is manual but whose effect_type is not cards is written back
unchanged — its trigger does not become auto, because the trigger rewrite
also requires effect_type cards, which the claim omits. -/
theorem C10_counterexample :
    (fix_l_cards_row
      { space_name := "PM-DECISION-CHECK".data
        visit_type := "First".data
        effect_type := "time".data
        effect_action := "draw_l".data
        effect_value := "1".data
        condition := []
        description := []
        trigger_type := "manual".data }) =
      { space_name := "PM-DECISION-CHECK".data
        visit_type := "First".data
        effect_type := "time".data
        effect_action := "draw_l".data
        effect_value := "1".data
        condition := []
        description := []
        trigger_type := "manual".data } ∧
    (fix_l_cards_row
      { space_name := "PM-DECISION-CHECK".data
        visit_type := "First".data
        effect_type := "time".data
        effect_action := "draw_l".data
        effect_value := "1".data
        condition := []
        description := []
        trigger_type := "manual".data }).trigger_type ≠ "auto".data := by
  decide

/-- C10 amended: the row count is preserved; space_name, visit_type,
effect_type, effect_value and condition are never changed; every row whose
original effect_type is cards, original effect_action is draw_l, and
original trigger_type is manual or blank ends with trigger_type auto;
effect_action and description become draw_e and the rewritten text exactly
on rows matching the LEND-SCOPE-CHECK pattern and stay unchanged otherwise;
and the trigger only changes on cards draw_l rows with a manual or blank
trigger. -/
theorem C10_amended (rows : List EffectRow) (row : EffectRow) :
    (fix_l_cards rows).length = rows.length ∧
    ((fix_l_cards_row row).space_name = row.space_name ∧
     (fix_l_cards_row row).visit_type = row.visit_type ∧
     (fix_l_cards_row row).effect_type = row.effect_type ∧
     (fix_l_cards_row row).effect_value = row.effect_value ∧
     (fix_l_cards_row row).condition = row.condition) ∧
    (row.effect_type = "cards".data → row.effect_action = "draw_l".data →
      (row.trigger_type = "manual".data ∨ row.trigger_type = [] ∨
        pyStrip row.trigger_type = []) →
      (fix_l_cards_row row).trigger_type = "auto".data) ∧
    ((lend_fix_applies row = true →
      (fix_l_cards_row row).effect_action = "draw_e".data ∧
      (fix_l_cards_row row).description = "Draw 1 E card".data) ∧
     (lend_fix_applies row = false →
      (fix_l_cards_row row).effect_action = row.effect_action ∧
      (fix_l_cards_row row).description = row.description)) ∧
    ((fix_l_cards_row row).trigger_type ≠ row.trigger_type →
      row.effect_type = "cards".data ∧ row.effect_action = "draw_l".data ∧
      (row.trigger_type = "manual".data ∨ row.trigger_type = [] ∨
        pyStrip row.trigger_type = [])) := by
  refine ⟨List.length_map rows fix_l_cards_row, ?_, ?_, ?_, ?_⟩
  · unfold fix_l_cards_row
    dsimp only
    split_ifs <;> simp_all
  · intro ht ha htr
    unfold fix_l_cards_row
    dsimp only
    rw [if_pos (by simp [ht, ha])]
    rcases htr with htr | htr | htr
    · rw [if_pos (by simp [htr])]
    · rw [if_neg (by simp [htr]), if_neg (by simp [htr]),
        if_pos (by simp [htr])]
    · by_cases hm : row.trigger_type == "manual".data
      · rw [if_pos hm]
      · by_cases hau : row.trigger_type == "auto".data
        · exfalso
          rw [beq_iff_eq] at hau
          rw [hau] at htr
          simp [pyStrip, pyIsSpace] at htr
        · rw [if_neg hm, if_neg hau, if_pos (by simp [htr])]
  · constructor
    · intro hl
      unfold fix_l_cards_row
      dsimp only
      split_ifs <;> simp_all
    · intro hl
      unfold fix_l_cards_row
      dsimp only
      split_ifs <;> simp_all
  · intro hch
    unfold fix_l_cards_row at hch
    dsimp only at hch
    by_cases hc : (row.effect_type == "cards".data &&
        row.effect_action == "draw_l".data) = true
    · rw [if_pos hc] at hch
      simp only [Bool.and_eq_true, beq_iff_eq] at hc
      refine ⟨hc.1, hc.2, ?_⟩
      by_cases hm : row.trigger_type == "manual".data
      · rw [beq_iff_eq] at hm
        exact Or.inl hm
      · rw [if_neg hm] at hch
        by_cases hau : row.trigger_type == "auto".data
        · exfalso
          rw [if_pos hau] at hch
          split_ifs at hch <;> simp_all
        · rw [if_neg hau] at hch
          by_cases hbl : (row.trigger_type.isEmpty ||
              (pyStrip row.trigger_type).isEmpty) = true
          · rcases Bool.or_eq_true _ _ |>.mp hbl with hbl1 | hbl1
            · exact Or.inr (Or.inl (by simpa [List.isEmpty_iff] using hbl1))
            · exact Or.inr (Or.inr (by simpa [List.isEmpty_iff] using hbl1))
          · exfalso
            rw [if_neg hbl] at hch
            split_ifs at hch <;> simp_all
    · exfalso
      rw [if_neg hc] at hch
      split_ifs at hch <;> simp_all

def c10Row : EffectRow :=
  { space_name := "LEND-SCOPE-CHECK".data
    visit_type := "First".data
    effect_type := "cards".data
    effect_action := "draw_l".data
    effect_value := "1".data
    condition := "always".data
    description := "1 L cards".data
    trigger_type := "manual".data }

theorem C10_amended_witness :
    (fix_l_cards_row c10Row).trigger_type = "auto".data ∧
    (fix_l_cards_row c10Row).effect_action = "draw_e".data := by
  have h := C10_amended [] c10Row
  exact ⟨h.2.2.1 (by decide) (by decide) (Or.inl (by decide)),
    (h.2.2.2.1.1 (by decide)).1⟩

/-! ## C8: exit status of the validation utilities -/

namespace ValidateMovementData

/-- src/data/validate_movement_data.py, is_valid_space_name (lines 12-35):
the movement validator has its own, simpler classifier (no placeholder,
branch-label or duration checks). -/
def is_valid_space_name (raw : Str) : Bool :=
  let name := pyStrip raw
  !name.isEmpty &&
  matchesNamePattern name &&
  !name.contains '?' &&
  (name.contains '-' || name == "START".data || name == "FINISH".data) &&
  decide (5 ≤ name.length)

/-- main, lines 66-70: the stripped, non-empty destination cells of one
movement row. -/
def destinations (m : MovementRecord) : List Str :=
  ([pyStrip m.destination_1, pyStrip m.destination_2, pyStrip m.destination_3,
    pyStrip m.destination_4, pyStrip m.destination_5]).filter fun d => !d.isEmpty

/-- main, checks 1-4 (lines 72-110): the number of error entries appended
for one movement row, given the key set of DICE_OUTCOMES.csv. -/
def row_error_count (dice_keys : List (Str × Str)) (m : MovementRecord) : Nat :=
  (destinations m).countP (fun d => d.contains '?') +
  (destinations m).countP (fun d => !is_valid_space_name d) +
  (if m.movement_type == "dice".data &&
      !(dice_keys.contains (m.space_name, m.visit_type)) then 1 else 0) +
  (if !(m.movement_type == "none".data || m.movement_type == "dice".data) &&
      (destinations m).isEmpty then 1 else 0)

/-- main, check 5 (lines 112-120): the number of warning entries appended
for one movement row. -/
def row_warning_count (m : MovementRecord) : Nat :=
  (destinations m).countP fun d =>
    strContains (pyUpper d) "YES".data || strContains (pyUpper d) "NO".data ||
      strContains d " or ".data

/-- Total errors detected over the loaded movement entries. -/
def error_total (dice_keys : List (Str × Str))
    (ms : List MovementRecord) : Nat :=
  (ms.map (row_error_count dice_keys)).sum

/-- Total warnings detected over the loaded movement entries. -/
def warning_total (ms : List MovementRecord) : Nat :=
  (ms.map row_warning_count).sum

/-- src/data/validate_movement_data.py, main (lines 122-154) and the
module-level exit(main()): return 0 early when there are no errors and no
warnings, otherwise 1 if there is at least one error and 0 otherwise.
ms stands for the values of the dict built by load_csv_dict. -/
def main_exit (dice_keys : List (Str × Str)) (ms : List MovementRecord) : Nat :=
  if error_total dice_keys ms = 0 ∧ warning_total ms = 0 then 0
  else if error_total dice_keys ms ≠ 0 then 1 else 0

end ValidateMovementData

namespace ValidateData

/-- One row of the source DiceRoll Info.csv as the data-preservation
validator consults it (space_name, die_roll, visit_type). -/
structure DiceInfoRow where
  space_name : Str
  die_roll : Str
  visit_type : Str
deriving DecidableEq, Repr

/-- One row of SPACE_CONTENT.csv; the validator consults only the key
fields. -/
structure ContentRow where
  space_name : Str
  visit_type : Str
deriving DecidableEq, Repr

/-- src/data/VALIDATION/validate_data.py, validate_space_names (lines
31-68): fails exactly when some non-empty source space name appears in no
clean file (extra clean names only warn). -/
def validate_space_names (spaces_source : List SpaceRow)
    (dice_source : List DiceInfoRow) (movement : List MovementRecord)
    (effects : List EffectRow) (content : List ContentRow)
    (config : List GameConfigRow) : Bool :=
  let all_source :=
    (spaces_source.map (fun r => r.space_name)).filter (fun n => !n.isEmpty) ++
    (dice_source.map (fun r => r.space_name)).filter (fun n => !n.isEmpty)
  let all_clean :=
    (movement.map (fun r => r.space_name)).filter (fun n => !n.isEmpty) ++
    (effects.map (fun r => r.space_name)).filter (fun n => !n.isEmpty) ++
    (content.map (fun r => r.space_name)).filter (fun n => !n.isEmpty) ++
    (config.map (fun r => r.space_name)).filter (fun n => !n.isEmpty)
  !(all_source.any fun n => !(all_clean.contains n))

/-- validate_visit_types (lines 70-103): fails exactly when some source
(space_name, visit_type) pair with both fields non-empty appears in none of
the three keyed clean files. -/
def validate_visit_types (spaces_source : List SpaceRow)
    (dice_source : List DiceInfoRow) (movement : List MovementRecord)
    (effects : List EffectRow) (content : List ContentRow) : Bool :=
  let src :=
    (spaces_source.filterMap fun r =>
      if !r.space_name.isEmpty && !r.visit_type.isEmpty then
        some (r.space_name, r.visit_type) else none) ++
    (dice_source.filterMap fun r =>
      if !r.space_name.isEmpty && !r.visit_type.isEmpty then
        some (r.space_name, r.visit_type) else none)
  let clean :=
    (movement.filterMap fun r =>
      if !r.space_name.isEmpty && !r.visit_type.isEmpty then
        some (r.space_name, r.visit_type) else none) ++
    (effects.filterMap fun r =>
      if !r.space_name.isEmpty && !r.visit_type.isEmpty then
        some (r.space_name, r.visit_type) else none) ++
    (content.filterMap fun r =>
      if !r.space_name.isEmpty && !r.visit_type.isEmpty then
        some (r.space_name, r.visit_type) else none)
  !(src.any fun k => !(clean.contains k))

/-- validate_dice_outcomes (lines 105-125): fails exactly when the clean
DICE_OUTCOMES row count differs from the source Next Step row count by more
than ten. -/
def validate_dice_outcomes (dice_source : List DiceInfoRow)
    (dice_outcomes : List (List Str)) : Bool :=
  let expected := (dice_source.filter
    (fun r => r.die_roll == "Next Step".data)).length
  decide (((dice_outcomes.length : Int) - (expected : Int)).natAbs ≤ 10)

/-- validate_effects_data (lines 127-153): counts the source cells among the
seven effect columns that are non-empty with non-empty strip, and fails when
the clean/source ratio is below 0.8 or above 1.5; with a zero source count
the ratio is the integer 0, which is below 0.8, so the check fails.  The
Python float comparisons are rendered as exact rational comparisons; the
theorem below only exercises the zero-source branch, where both agree. -/
def validate_effects_data (spaces_source : List SpaceRow)
    (effects : List EffectRow) : Bool :=
  let src := (spaces_source.map fun r =>
    ([r.w_card, r.b_card, r.i_card, r.l_card, r.e_card, r.Time, r.Fee].countP
      fun c => !c.isEmpty && !(pyStrip c).isEmpty)).sum
  let clean := effects.length
  if src = 0 then false
  else !(decide (10 * clean < 8 * src) || decide (2 * clean > 3 * src))

/-- validate_content_data (lines 155-171): fails exactly when the clean
content row count differs from the number of source rows with a non-empty
Event cell. -/
def validate_content_data (spaces_source : List SpaceRow)
    (content : List ContentRow) : Bool :=
  let story := (spaces_source.filter
    (fun r => !r.Event.isEmpty && !(pyStrip r.Event).isEmpty)).length
  decide (content.length = story)

/-- src/data/VALIDATION/validate_data.py, main (lines 173-205): runs the
five checks and returns the conjunction of their results (all(results)). -/
def main_result (spaces_source : List SpaceRow) (dice_source : List DiceInfoRow)
    (movement : List MovementRecord) (effects : List EffectRow)
    (content : List ContentRow) (config : List GameConfigRow)
    (dice_outcomes : List (List Str)) : Bool :=
  validate_space_names spaces_source dice_source movement effects content config &&
  validate_visit_types spaces_source dice_source movement effects content &&
  validate_dice_outcomes dice_source dice_outcomes &&
  validate_effects_data spaces_source effects &&
  validate_content_data spaces_source content

/-- The module level of validate_data.py (lines 207-208) calls main() and
discards the returned Bool; a Python script that runs to the end without
sys.exit terminates with process status 0, so the exit status is 0
regardless of the detected errors. -/
def script_exit (spaces_source : List SpaceRow) (dice_source : List DiceInfoRow)
    (movement : List MovementRecord) (effects : List EffectRow)
    (content : List ContentRow) (config : List GameConfigRow)
    (dice_outcomes : List (List Str)) : Nat :=
  let _ := main_result spaces_source dice_source movement effects content
    config dice_outcomes
  0

end ValidateData

/-- C8: the movement-data validator exits nonzero exactly when it detected
at least one error; but the data-preservation validator always exits with
status 0 — on the all-empty input its effects-preservation check fails (the
ratio of a zero source count is the integer 0, below the 0.8 floor), main()
returns false, and the process still exits 0 because the module-level call
discards the result. -/
theorem C8_exit_status :
    (∀ (dice_keys : List (Str × Str)) (ms : List MovementRecord),
      ValidateMovementData.main_exit dice_keys ms ≠ 0 ↔
        ValidateMovementData.error_total dice_keys ms ≠ 0) ∧
    (ValidateData.main_result [] [] [] [] [] [] [] = false ∧
     ValidateData.script_exit [] [] [] [] [] [] [] = 0) := by
  refine ⟨fun dk ms => ?_, by decide, rfl⟩
  unfold ValidateMovementData.main_exit
  split_ifs with h1 h2
  · simp [h1.1]
  · simp [h2]
  · simp at h2
    simp [h2]

/-! ## C7: writer and loader round trip

The writers use csv.DictWriter with the default dialect and a file opened
with newline control disabled, so each record is the comma-joined fields,
QUOTE_MINIMAL-quoted, terminated by CRLF.  The loader read_csv_file opens
the file in plain text mode, so Python universal-newline translation maps
CRLF and lone CR to LF before the csv parser sees the stream; csv.DictReader
then parses the stream with the default dialect. -/

/-- QUOTE_MINIMAL: a field is quoted exactly when it contains the delimiter,
the quote character, or a character of the CRLF line terminator. -/
def needsQuote (f : Str) : Bool :=
  f.any fun c => c == ',' || c == '"' || c == '\r' || c == '\n'

/-- doublequote escaping: every quote character is doubled. -/
def escapeQuotes : Str → Str
  | [] => []
  | c :: rest =>
    if c = '"' then '"' :: '"' :: escapeQuotes rest
    else c :: escapeQuotes rest

/-- csv.writer field encoding with the default dialect. -/
def encodeField (f : Str) : Str :=
  if needsQuote f then '"' :: (escapeQuotes f ++ ['"']) else f

/-- Python csv delimiter join of the encoded fields. -/
def joinComma : List Str → Str
  | [] => []
  | [f] => f
  | f :: rest => f ++ ',' :: joinComma rest

/-- One written record: encoded fields joined by commas, CRLF terminated. -/
def encodeRow (fields : List Str) : Str :=
  joinComma (fields.map encodeField) ++ ['\r', '\n']

/-- The same record as the parser sees it after universal-newline
translation: LF terminated. -/
def encodeRowLF (fields : List Str) : Str :=
  joinComma (fields.map encodeField) ++ ['\n']

/-- csv.DictWriter output: the header row then one record per row. -/
def writeTable (header : List Str) (rows : List (List Str)) : Str :=
  encodeRow header ++ (rows.map encodeRow).flatten

/-- Universal-newline translation of Python text-mode reading: CRLF and
lone CR become LF, everywhere in the stream, quoted fields included. -/
def univNewlines : Str → Str
  | [] => []
  | [c] => if c = '\r' then ['\n'] else [c]
  | c :: d :: rest =>
    if c = '\r' then
      if d = '\n' then '\n' :: univNewlines rest
      else '\n' :: univNewlines (d :: rest)
    else c :: univNewlines (d :: rest)

/-- utf-8-sig reading: a leading byte-order mark is dropped. -/
def stripBOM : Str → Str
  | [] => []
  | c :: rest => if c = '\uFEFF' then rest else c :: rest

/-- Parser state of the csv.reader model: inside a plain field, inside a
quoted section, or just after a quote character inside a quoted section
(which is either the closing quote or the first half of a doubled one). -/
inductive CsvState where
  | plain
  | quoted
  | quoteInQuoted
deriving DecidableEq, Repr

/-- The current record, assembled from the reversed accumulators. -/
def rowOf (fldRev : Str) (rowRev : List Str) : List Str :=
  (fldRev.reverse :: rowRev).reverse

/-- csv.reader state machine with the default dialect over the translated
stream: comma delimits fields, LF delimits records, a quote at the start of
a field opens a quoted section in which a doubled quote is a literal quote,
characters after a closing quote are appended to the field (non-strict
mode), a blank line yields an empty record, a quoted-only empty line yields
a one-empty-field record, and a final record without a trailing newline is
still yielded.  qSeen records whether the current record used quoting;
fldRev and rowRev accumulate the current field and record in reverse. -/
def csvGo : Str → CsvState → Bool → Str → List Str → List (List Str)
  | [], _, qSeen, fldRev, rowRev =>
    if qSeen = false ∧ fldRev = [] ∧ rowRev = [] then []
    else [rowOf fldRev rowRev]
  | c :: rest, CsvState.quoted, qSeen, fldRev, rowRev =>
    if c = '"' then csvGo rest CsvState.quoteInQuoted qSeen fldRev rowRev
    else csvGo rest CsvState.quoted qSeen (c :: fldRev) rowRev
  | c :: rest, CsvState.quoteInQuoted, qSeen, fldRev, rowRev =>
    if c = ',' then csvGo rest CsvState.plain qSeen [] (fldRev.reverse :: rowRev)
    else if c = '\n' then
      (if qSeen = false ∧ fldRev = [] ∧ rowRev = [] then []
       else rowOf fldRev rowRev) :: csvGo rest CsvState.plain false [] []
    else if c = '"' then csvGo rest CsvState.quoted qSeen ('"' :: fldRev) rowRev
    else csvGo rest CsvState.plain qSeen (c :: fldRev) rowRev
  | c :: rest, CsvState.plain, qSeen, fldRev, rowRev =>
    if c = ',' then csvGo rest CsvState.plain qSeen [] (fldRev.reverse :: rowRev)
    else if c = '\n' then
      (if qSeen = false ∧ fldRev = [] ∧ rowRev = [] then []
       else rowOf fldRev rowRev) :: csvGo rest CsvState.plain false [] []
    else if c = '"' then
      if fldRev = [] then csvGo rest CsvState.quoted true [] rowRev
      else csvGo rest CsvState.plain qSeen ('"' :: fldRev) rowRev
    else csvGo rest CsvState.plain qSeen (c :: fldRev) rowRev

/-- csv.reader over a translated character stream. -/
def parseCsv (s : Str) : List (List Str) :=
  csvGo s CsvState.plain false [] []

/-- src/data/VALIDATION/validate_data.py, read_csv_file (lines 16-29), up
to the record structure: utf-8-sig text-mode reading (BOM strip, universal
newlines) followed by csv parsing.  The BOM-renaming branch is never
exercised by writer output, which starts with a header letter. -/
def read_csv_rows (content : Str) : List (List Str) :=
  parseCsv (univNewlines (stripBOM content))

/-- The fixed column order of SPACE_EFFECTS.csv in process_space_effects
(src/data/process_remaining_files.py lines 166-167). -/
def effect_fieldnames : List Str :=
  ["space_name".data, "visit_type".data, "effect_type".data,
   "effect_action".data, "effect_value".data, "condition".data,
   "description".data, "trigger_type".data]

/-- The cell values of one effect record in the fixed column order, as
DictWriter emits them. -/
def effectFields (r : EffectRow) : List Str :=
  [r.space_name, r.visit_type, r.effect_type, r.effect_action,
   r.effect_value, r.condition, r.description, r.trigger_type]

/-- src/data/process_remaining_files.py, process_space_effects (lines
164-170), the writer call: header then one record per effect row. -/
def write_space_effects (rows : List EffectRow) : Str :=
  writeTable effect_fieldnames (rows.map effectFields)

/-- One parsed record zipped back with the fixed header, as csv.DictReader
yields it for this file. -/
def effectOfFields (cells : List Str) : EffectRow :=
  { space_name := cells.getD 0 []
    visit_type := cells.getD 1 []
    effect_type := cells.getD 2 []
    effect_action := cells.getD 3 []
    effect_value := cells.getD 4 []
    condition := cells.getD 5 []
    description := cells.getD 6 []
    trigger_type := cells.getD 7 [] }

/-- Loading SPACE_EFFECTS.csv through read_csv_file: parse, drop the header
row, skip blank records (csv.DictReader), rebuild the records. -/
def load_space_effects (content : Str) : List EffectRow :=
  (((read_csv_rows content).drop 1).filter (fun r => !r.isEmpty)).map
    effectOfFields

/-! ### Universal-newline lemmas -/

theorem univNewlines_cons_ne {c : Char} (h : c ≠ '\r') (t : Str) :
    univNewlines (c :: t) = c :: univNewlines t := by
  cases t <;> simp [univNewlines, h]

theorem univNewlines_crlf (b : Str) :
    univNewlines ('\r' :: '\n' :: b) = '\n' :: univNewlines b := by
  simp [univNewlines]

theorem univNewlines_append {a : Str} (b : Str) (ha : '\r' ∉ a) :
    univNewlines (a ++ b) = a ++ univNewlines b := by
  induction a with
  | nil => rfl
  | cons c t ih =>
    have hc : c ≠ '\r' := fun h => ha (by rw [h]; exact List.mem_cons_self _ _)
    have ht : '\r' ∉ t := fun h => ha (List.mem_cons.mpr (Or.inr h))
    rw [List.cons_append, univNewlines_cons_ne hc, ih ht, List.cons_append]

/-! ### Character-set lemmas for encoded rows -/

theorem mem_escapeQuotes {c : Char} {f : Str} (h : c ∈ escapeQuotes f) :
    c ∈ f := by
  induction f with
  | nil => simp [escapeQuotes] at h
  | cons d t ih =>
    unfold escapeQuotes at h
    split_ifs at h with hd
    · rcases List.mem_cons.mp h with h1 | h1
      · simp [h1, hd]
      · rcases List.mem_cons.mp h1 with h2 | h2
        · simp [h2, hd]
        · exact List.mem_cons.mpr (Or.inr (ih h2))
    · rcases List.mem_cons.mp h with h1 | h1
      · simp [h1]
      · exact List.mem_cons.mpr (Or.inr (ih h1))

theorem mem_encodeField {c : Char} {f : Str} (h : c ∈ encodeField f) :
    c ∈ f ∨ c = '"' := by
  unfold encodeField at h
  split_ifs at h with hq
  · rcases List.mem_cons.mp h with h1 | h1
    · exact Or.inr h1
    · rcases List.mem_append.mp h1 with h2 | h2
      · exact Or.inl (mem_escapeQuotes h2)
      · simp at h2
        exact Or.inr h2
  · exact Or.inl h

theorem mem_joinComma {c : Char} {fs : List Str} (h : c ∈ joinComma fs) :
    (∃ f ∈ fs, c ∈ f) ∨ c = ',' := by
  induction fs with
  | nil => simp [joinComma] at h
  | cons f t ih =>
    cases t with
    | nil => exact Or.inl ⟨f, by simp, by simpa [joinComma] using h⟩
    | cons g t2 =>
      rw [show joinComma (f :: g :: t2) = f ++ ',' :: joinComma (g :: t2)
        from rfl] at h
      rcases List.mem_append.mp h with h1 | h1
      · exact Or.inl ⟨f, by simp, h1⟩
      · rcases List.mem_cons.mp h1 with h2 | h2
        · exact Or.inr h2
        · rcases ih h2 with ⟨x, hx, hcx⟩ | h3
          · exact Or.inl ⟨x, List.mem_cons.mpr (Or.inr hx), hcx⟩
          · exact Or.inr h3

theorem noCR_body {fs : List Str} (h : ∀ f ∈ fs, '\r' ∉ f) :
    '\r' ∉ joinComma (fs.map encodeField) := by
  intro hmem
  rcases mem_joinComma hmem with ⟨g, hg, hcg⟩ | hc
  · rcases List.mem_map.mp hg with ⟨f, hf, rfl⟩
    rcases mem_encodeField hcg with h1 | h1
    · exact h f hf h1
    · exact absurd h1 (by decide)
  · exact absurd hc (by decide)

theorem univ_row_step (fs : List Str) (X : Str) (h : ∀ f ∈ fs, '\r' ∉ f) :
    univNewlines (encodeRow fs ++ X) = encodeRowLF fs ++ univNewlines X := by
  unfold encodeRow encodeRowLF
  rw [List.append_assoc,
    univNewlines_append (['\r', '\n'] ++ X) (noCR_body h),
    show (['\r', '\n'] : Str) ++ X = '\r' :: '\n' :: X from rfl,
    univNewlines_crlf, List.append_assoc]
  rfl

theorem univ_flatten (rows : List (List Str))
    (hr : ∀ r ∈ rows, ∀ f ∈ r, '\r' ∉ f) :
    univNewlines ((rows.map encodeRow).flatten) =
      (rows.map encodeRowLF).flatten := by
  induction rows with
  | nil => rfl
  | cons r t ih =>
    simp only [List.map_cons, List.flatten_cons]
    rw [univ_row_step r _ (hr r (List.mem_cons_self r t)),
      ih fun r' h' => hr r' (List.mem_cons.mpr (Or.inr h'))]

theorem univ_table (hdr : List Str) (rows : List (List Str))
    (hh : ∀ f ∈ hdr, '\r' ∉ f) (hr : ∀ r ∈ rows, ∀ f ∈ r, '\r' ∉ f) :
    univNewlines (writeTable hdr rows) =
      encodeRowLF hdr ++ (rows.map encodeRowLF).flatten := by
  unfold writeTable
  rw [univ_row_step hdr _ hh, univ_flatten rows hr]

/-! ### Parser lemmas -/

theorem csvGo_plain_push (f : Str) :
    needsQuote f = false →
    ∀ (rest : Str) (q : Bool) (fldRev : Str) (rowRev : List Str),
    csvGo (f ++ rest) CsvState.plain q fldRev rowRev =
      csvGo rest CsvState.plain q (f.reverse ++ fldRev) rowRev := by
  induction f with
  | nil =>
    intro _ rest q fldRev rowRev
    simp
  | cons c t ih =>
    intro hf rest q fldRev rowRev
    rw [needsQuote, List.any_cons, Bool.or_eq_false_iff] at hf
    obtain ⟨hc, ht⟩ := hf
    simp only [Bool.or_eq_false_iff, beq_eq_false_iff_ne] at hc
    obtain ⟨⟨⟨hc1, hc2⟩, hc3⟩, hc4⟩ := hc
    rw [List.cons_append]
    show csvGo (c :: (t ++ rest)) CsvState.plain q fldRev rowRev = _
    simp only [csvGo]
    rw [if_neg hc1, if_neg hc4, if_neg hc2, ih ht rest q (c :: fldRev) rowRev]
    simp [List.append_assoc]

theorem csvGo_quoted_push (f : Str) :
    ∀ (rest : Str) (q : Bool) (fldRev : Str) (rowRev : List Str),
    csvGo (escapeQuotes f ++ '"' :: rest) CsvState.quoted q fldRev rowRev =
      csvGo rest CsvState.quoteInQuoted q (f.reverse ++ fldRev) rowRev := by
  induction f with
  | nil =>
    intro rest q fldRev rowRev
    show csvGo ('"' :: rest) CsvState.quoted q fldRev rowRev = _
    simp [csvGo]
  | cons c t ih =>
    intro rest q fldRev rowRev
    by_cases hc : c = '"'
    · subst hc
      have step : csvGo (escapeQuotes ('"' :: t) ++ '"' :: rest)
          CsvState.quoted q fldRev rowRev =
          csvGo (escapeQuotes t ++ '"' :: rest) CsvState.quoted q
            ('"' :: fldRev) rowRev := rfl
      rw [step, ih rest q ('"' :: fldRev) rowRev]
      simp [List.append_assoc]
    · rw [show escapeQuotes (c :: t) = c :: escapeQuotes t from by
        simp [escapeQuotes, hc]]
      rw [List.cons_append]
      show csvGo (c :: (escapeQuotes t ++ '"' :: rest))
          CsvState.quoted q fldRev rowRev = _
      simp only [csvGo]
      rw [if_neg hc, ih rest q (c :: fldRev) rowRev]
      simp [List.append_assoc]

theorem csvGo_comma (st : CsvState)
    (hst : st = CsvState.plain ∨ st = CsvState.quoteInQuoted)
    (rest : Str) (q : Bool) (fldRev : Str) (rowRev : List Str) :
    csvGo (',' :: rest) st q fldRev rowRev =
      csvGo rest CsvState.plain q [] (fldRev.reverse :: rowRev) := by
  rcases hst with rfl | rfl <;> simp [csvGo]

theorem csvGo_nl (st : CsvState)
    (hst : st = CsvState.plain ∨ st = CsvState.quoteInQuoted)
    (rest : Str) (q : Bool) (fldRev : Str) (rowRev : List Str) :
    csvGo ('\n' :: rest) st q fldRev rowRev =
      (if q = false ∧ fldRev = [] ∧ rowRev = [] then []
       else rowOf fldRev rowRev) :: csvGo rest CsvState.plain false [] [] := by
  rcases hst with rfl | rfl <;> simp [csvGo]

theorem csvGo_open_quote (rest : Str) (q : Bool) (rowRev : List Str) :
    csvGo ('"' :: rest) CsvState.plain q [] rowRev =
      csvGo rest CsvState.quoted true [] rowRev := by
  simp [csvGo]

/-- Processing one encoded field from a fresh-field position leaves the
parser just after the field, in the plain or after-quote state, with the
field accumulated. -/
theorem csvGo_encField (f : Str) (rest : Str) (q : Bool) (rowRev : List Str) :
    ∃ st q2, (st = CsvState.plain ∨ st = CsvState.quoteInQuoted) ∧
    csvGo (encodeField f ++ rest) CsvState.plain q [] rowRev =
      csvGo rest st q2 f.reverse rowRev := by
  cases hq : needsQuote f with
  | false =>
    refine ⟨CsvState.plain, q, Or.inl rfl, ?_⟩
    rw [show encodeField f = f from by simp [encodeField, hq],
      csvGo_plain_push f hq rest q [] rowRev, List.append_nil]
  | true =>
    refine ⟨CsvState.quoteInQuoted, true, Or.inr rfl, ?_⟩
    rw [show encodeField f ++ rest =
        '"' :: (escapeQuotes f ++ '"' :: rest) from by
      simp [encodeField, hq, List.append_assoc]]
    rw [csvGo_open_quote, csvGo_quoted_push f rest true [] rowRev,
      List.append_nil]

theorem csvGo_fields_tail (gs : List Str) :
    (∀ f ∈ gs, '\r' ∉ f) → gs ≠ [] →
    ∀ (rest : Str) (q : Bool) (rowRev : List Str), rowRev ≠ [] →
    csvGo (joinComma (gs.map encodeField) ++ '\n' :: rest)
        CsvState.plain q [] rowRev =
      (rowRev.reverse ++ gs) :: csvGo rest CsvState.plain false [] [] := by
  induction gs with
  | nil => intro _ h; exact absurd rfl h
  | cons g t ih =>
    intro hcr _ rest q rowRev hrow
    cases t with
    | nil =>
      simp only [List.map_cons, List.map_nil, joinComma]
      obtain ⟨st, q2, hst, hgo⟩ := csvGo_encField g ('\n' :: rest) q rowRev
      rw [hgo, csvGo_nl st hst, if_neg (by simp [hrow])]
      simp [rowOf]
    | cons g2 t2 =>
      have hrt : ∀ f ∈ g2 :: t2, '\r' ∉ f := fun f hf =>
        hcr f (List.mem_cons.mpr (Or.inr hf))
      rw [show joinComma ((g :: g2 :: t2).map encodeField) =
          encodeField g ++ ',' :: joinComma ((g2 :: t2).map encodeField)
        from rfl]
      rw [List.append_assoc, List.cons_append]
      obtain ⟨st, q2, hst, hgo⟩ := csvGo_encField g
        (',' :: (joinComma ((g2 :: t2).map encodeField) ++ '\n' :: rest))
        q rowRev
      rw [hgo, csvGo_comma st hst, List.reverse_reverse]
      rw [ih hrt (by simp) rest q2 (g :: rowRev) (by simp)]
      simp [List.append_assoc]

theorem csvGo_row (fs : List Str) (h2 : 2 ≤ fs.length)
    (hcr : ∀ f ∈ fs, '\r' ∉ f) (rest : Str) (q : Bool) :
    csvGo (joinComma (fs.map encodeField) ++ '\n' :: rest)
        CsvState.plain q [] [] =
      fs :: csvGo rest CsvState.plain false [] [] := by
  match fs, h2 with
  | f1 :: g2 :: t2, _ =>
    have hrt : ∀ f ∈ g2 :: t2, '\r' ∉ f := fun f hf =>
      hcr f (List.mem_cons.mpr (Or.inr hf))
    rw [show joinComma ((f1 :: g2 :: t2).map encodeField) =
        encodeField f1 ++ ',' :: joinComma ((g2 :: t2).map encodeField)
      from rfl]
    rw [List.append_assoc, List.cons_append]
    obtain ⟨st, q2, hst, hgo⟩ := csvGo_encField f1
      (',' :: (joinComma ((g2 :: t2).map encodeField) ++ '\n' :: rest)) q []
    rw [hgo, csvGo_comma st hst, List.reverse_reverse]
    rw [csvGo_fields_tail (g2 :: t2) hrt (by simp) rest q2 [f1] (by simp)]
    simp

theorem csvGo_rows (rws : List (List Str))
    (h : ∀ r ∈ rws, 2 ≤ r.length ∧ ∀ f ∈ r, '\r' ∉ f) :
    csvGo ((rws.map encodeRowLF).flatten) CsvState.plain false [] [] = rws := by
  induction rws with
  | nil => rfl
  | cons r t ih =>
    simp only [List.map_cons, List.flatten_cons]
    rw [show encodeRowLF r ++ (t.map encodeRowLF).flatten =
        joinComma (r.map encodeField) ++
          '\n' :: (t.map encodeRowLF).flatten from by
      simp [encodeRowLF, List.append_assoc]]
    rw [csvGo_row r (h r (List.mem_cons_self r t)).1
      (h r (List.mem_cons_self r t)).2,
      ih fun r' h' => h r' (List.mem_cons.mpr (Or.inr h'))]

/-- A record whose effect_value holds a CRLF pair: universal-newline
translation will rewrite it on the way back in. -/
def c7Row : EffectRow :=
  { space_name := "X-TEST-SPACE".data
    visit_type := "First".data
    effect_type := "cards".data
    effect_action := "draw_w".data
    effect_value := "a\r\nb".data
    condition := []
    description := []
    trigger_type := "manual".data }

/-- A record exercising the quoting paths (comma, quote, newline) with no
carriage return. -/
def c7CleanRow : EffectRow :=
  { space_name := "OWNER-SCOPE-INITIATION".data
    visit_type := "he said \"hi\"".data
    effect_type := "multi\nline".data
    effect_action := "a,b".data
    effect_value := "3".data
    condition := []
    description := "3 W cards".data
    trigger_type := "manual".data }

/-- C7 counterexample: writing a record whose effect_value contains a CRLF
pair and re-reading the file with the loader yields a different record —
the loader's text-mode universal-newline translation turns the quoted CRLF
into LF, so the round trip is not row-for-row equal for all field values. -/
theorem C7_counterexample :
    load_space_effects (write_space_effects [c7Row]) ≠ [c7Row] ∧
    (load_space_effects (write_space_effects [c7Row])).map
      (fun r => r.effect_value) = ["a\nb".data] := by decide

/-- C7 amended: for every effect-record collection none of whose field
values contains a carriage return, writing the table with the fixed column
order and re-reading the output with the CSV loader yields the records
row for row, for all such field values (commas, quotes and line feeds
included, through QUOTE_MINIMAL quoting and doubled quotes). -/
theorem C7_amended (rows : List EffectRow)
    (hcr : ∀ r ∈ rows, ∀ f ∈ effectFields r, '\r' ∉ f) :
    load_space_effects (write_space_effects rows) = rows := by
  have hbom : stripBOM (write_space_effects rows) = write_space_effects rows := by
    unfold write_space_effects writeTable
    obtain ⟨tl, htl⟩ : ∃ tl, encodeRow effect_fieldnames = 's' :: tl := ⟨_, rfl⟩
    rw [htl, List.cons_append]
    simp [stripBOM]
  have hfields : ∀ r ∈ rows.map effectFields,
      2 ≤ r.length ∧ ∀ f ∈ r, '\r' ∉ f := by
    intro r hr
    rcases List.mem_map.mp hr with ⟨er, her, rfl⟩
    exact ⟨by simp [effectFields], fun f hf => hcr er her f hf⟩
  have hparse : read_csv_rows (write_space_effects rows) =
      effect_fieldnames :: rows.map effectFields := by
    unfold read_csv_rows
    rw [hbom]
    unfold write_space_effects
    rw [univ_table effect_fieldnames (rows.map effectFields) (by decide)
      (fun r hr => (hfields r hr).2)]
    rw [show encodeRowLF effect_fieldnames ++
        ((rows.map effectFields).map encodeRowLF).flatten =
        ((effect_fieldnames :: rows.map effectFields).map encodeRowLF).flatten
      from by simp]
    unfold parseCsv
    refine csvGo_rows _ ?_
    intro r hr
    rcases List.mem_cons.mp hr with rfl | hr2
    · exact ⟨by decide, by decide⟩
    · exact hfields r hr2
  unfold load_space_effects
  rw [hparse,
    show (effect_fieldnames :: rows.map effectFields).drop 1 =
      rows.map effectFields from rfl]
  have hfil : ∀ r ∈ rows.map effectFields, (!r.isEmpty) = true := by
    intro r hr
    rcases List.mem_map.mp hr with ⟨er, her, rfl⟩
    rfl
  rw [List.filter_eq_self.mpr hfil, List.map_map,
    show (effectOfFields ∘ effectFields) = id from funext fun er => rfl,
    List.map_id]

theorem C7_amended_witness :
    load_space_effects (write_space_effects [c7CleanRow]) = [c7CleanRow] :=
  C7_amended [c7CleanRow] (by decide)

end GameAlpha
